import Mathlib

/-!
Verification of the two-sided market simulator core (src/app.py).

The core of the repository is the fixed-point equilibrium solver
`solve_demands` together with the revenue grid scan built on
`np.linspace` / `np.argmax`.  Floating-point arithmetic is idealised as
real arithmetic; fractional powers are `Real.rpow`.
-/

namespace Market

/-- The eight model parameters passed to `solve_demands` in src/app.py. -/
structure Params where
  k_A : ℝ
  k_B : ℝ
  p_A : ℝ
  p_B : ℝ
  beta_A : ℝ
  beta_B : ℝ
  gamma_A : ℝ
  gamma_B : ℝ

/-- One pass of the loop body of `solve_demands` (src/app.py lines 47-48):
`new_Q_A = k_A * (p_A ** beta_A) * ((Q_B + 1.0) ** gamma_A)` and
`new_Q_B = k_B * (p_B ** beta_B) * ((Q_A + 1.0) ** gamma_B)`, both computed
from the previous pair (Jacobi style). -/
noncomputable def stepQ (P : Params) (Q : ℝ × ℝ) : ℝ × ℝ :=
  (P.k_A * P.p_A ^ P.beta_A * (Q.2 + 1) ^ P.gamma_A,
   P.k_B * P.p_B ^ P.beta_B * (Q.1 + 1) ^ P.gamma_B)

/-- The `for _ in range(max_iter)` loop of `solve_demands` (src/app.py
lines 46-52), with the remaining fuel as first argument: compute the new
pair; if both deltas are below `tol` stop with the new pair, else continue
from the new pair. -/
noncomputable def loopGo (P : Params) (tol : ℝ) : ℕ → ℝ × ℝ → ℝ × ℝ
  | 0, Q => Q
  | n + 1, Q =>
    let newQ := stepQ P Q
    if |newQ.1 - Q.1| < tol ∧ |newQ.2 - Q.2| < tol then newQ
    else loopGo P tol n newQ

/-- The clamp applied on return (src/app.py line 53):
`return max(Q_A, 0.0), max(Q_B, 0.0)`. -/
def clampQ (Q : ℝ × ℝ) : ℝ × ℝ :=
  (max Q.1 0, max Q.2 0)

/-- `solve_demands` with an explicit initial guess, iteration cap and
tolerance.  src/app.py fixes the initial guess to `(50.0, 50.0)`; the spec
(section 4.1) treats the initial guess as an input, so the generalisation is
modelled from the spec while the loop body is exactly the source's. -/
noncomputable def solveDemandsFrom (P : Params) (Q0 : ℝ × ℝ) (maxIter : ℕ)
    (tol : ℝ) : ℝ × ℝ :=
  clampQ (loopGo P tol maxIter Q0)

/-- `solve_demands` as called in src/app.py: starting guess `(50.0, 50.0)`,
`max_iter=500`, `tol=1e-6`. -/
noncomputable def solveDemands (P : Params) : ℝ × ℝ :=
  solveDemandsFrom P (50, 50) 500 (1 / 1000000)

/-- The value of the pair after `n` applications of the loop body, starting
from `Q0` (the abstract Jacobi iteration underlying the loop). -/
noncomputable def iterQ (P : Params) (Q0 : ℝ × ℝ) : ℕ → ℝ × ℝ
  | 0 => Q0
  | n + 1 => stepQ P (iterQ P Q0 n)

/-- The convergence test of the loop succeeds at pass `m + 1`: the deltas
between iterate `m` and iterate `m + 1` are both below `tol`. -/
def convAt (P : Params) (tol : ℝ) (Q0 : ℝ × ℝ) (m : ℕ) : Prop :=
  |(iterQ P Q0 (m + 1)).1 - (iterQ P Q0 m).1| < tol ∧
  |(iterQ P Q0 (m + 1)).2 - (iterQ P Q0 m).2| < tol

lemma iterQ_zero (P : Params) (Q0 : ℝ × ℝ) : iterQ P Q0 0 = Q0 := rfl

lemma iterQ_succ (P : Params) (Q0 : ℝ × ℝ) (n : ℕ) :
    iterQ P Q0 (n + 1) = stepQ P (iterQ P Q0 n) := rfl

lemma iterQ_shift (P : Params) (Q0 : ℝ × ℝ) (n : ℕ) :
    iterQ P (stepQ P Q0) n = iterQ P Q0 (n + 1) := by
  induction n with
  | zero => rfl
  | succ n ih =>
    rw [iterQ_succ, ih]
    rfl

lemma convAt_shift (P : Params) (tol : ℝ) (Q0 : ℝ × ℝ) (m : ℕ) :
    convAt P tol (stepQ P Q0) m ↔ convAt P tol Q0 (m + 1) := by
  unfold convAt
  rw [iterQ_shift, iterQ_shift]

lemma loopGo_succ (P : Params) (tol : ℝ) (n : ℕ) (Q : ℝ × ℝ) :
    loopGo P tol (n + 1) Q =
      if |(stepQ P Q).1 - Q.1| < tol ∧ |(stepQ P Q).2 - Q.2| < tol
      then stepQ P Q else loopGo P tol n (stepQ P Q) := rfl

lemma loopGo_succ_conv (P : Params) (tol : ℝ) (n : ℕ) (Q : ℝ × ℝ)
    (h : |(stepQ P Q).1 - Q.1| < tol ∧ |(stepQ P Q).2 - Q.2| < tol) :
    loopGo P tol (n + 1) Q = stepQ P Q := by
  rw [loopGo_succ, if_pos h]

lemma loopGo_succ_noconv (P : Params) (tol : ℝ) (n : ℕ) (Q : ℝ × ℝ)
    (h : ¬ (|(stepQ P Q).1 - Q.1| < tol ∧ |(stepQ P Q).2 - Q.2| < tol)) :
    loopGo P tol (n + 1) Q = loopGo P tol n (stepQ P Q) := by
  rw [loopGo_succ, if_neg h]

lemma convAt_zero_iff (P : Params) (tol : ℝ) (Q0 : ℝ × ℝ) :
    convAt P tol Q0 0 ↔
      (|(stepQ P Q0).1 - Q0.1| < tol ∧ |(stepQ P Q0).2 - Q0.2| < tol) :=
  Iff.rfl

/-- If the tolerance test fails at every pass within the fuel, the loop
returns the last computed iterate. -/
lemma loopGo_of_no_conv (P : Params) (tol : ℝ) (F : ℕ) (Q0 : ℝ × ℝ)
    (h : ∀ m, m < F → ¬ convAt P tol Q0 m) :
    loopGo P tol F Q0 = iterQ P Q0 F := by
  induction F generalizing Q0 with
  | zero => rfl
  | succ F ih =>
    have h0 : ¬ convAt P tol Q0 0 := h 0 (Nat.succ_pos F)
    rw [convAt_zero_iff] at h0
    rw [loopGo_succ_noconv P tol F Q0 h0]
    rw [ih (stepQ P Q0) (fun m hm => by
      rw [convAt_shift]
      exact h (m + 1) (Nat.succ_lt_succ hm))]
    rw [iterQ_shift]

/-- If the tolerance test first succeeds at pass `m + 1` (with `m < F`),
the loop returns iterate `m + 1`. -/
lemma loopGo_of_first_conv (P : Params) (tol : ℝ) (m F : ℕ) (Q0 : ℝ × ℝ)
    (hmF : m < F) (hc : convAt P tol Q0 m)
    (hmin : ∀ j, j < m → ¬ convAt P tol Q0 j) :
    loopGo P tol F Q0 = iterQ P Q0 (m + 1) := by
  induction m generalizing F Q0 with
  | zero =>
    obtain ⟨F', rfl⟩ := Nat.exists_eq_succ_of_ne_zero (Nat.pos_iff_ne_zero.mp hmF)
    rw [convAt_zero_iff] at hc
    rw [loopGo_succ_conv P tol F' Q0 hc]
    rfl
  | succ m ih =>
    obtain ⟨F', rfl⟩ := Nat.exists_eq_succ_of_ne_zero
      (Nat.pos_iff_ne_zero.mp (Nat.lt_of_le_of_lt (Nat.zero_le _) hmF))
    have h0 : ¬ convAt P tol Q0 0 := hmin 0 (Nat.succ_pos m)
    rw [convAt_zero_iff] at h0
    rw [loopGo_succ_noconv P tol F' Q0 h0]
    have hc' : convAt P tol (stepQ P Q0) m := by
      rw [convAt_shift]; exact hc
    have hmin' : ∀ j, j < m → ¬ convAt P tol (stepQ P Q0) j := fun j hj => by
      rw [convAt_shift]
      exact hmin (j + 1) (Nat.succ_lt_succ hj)
    rw [ih F' (stepQ P Q0) (Nat.lt_of_succ_lt_succ hmF) hc' hmin']
    rw [iterQ_shift]

lemma rpow_negOne (x : ℝ) : x ^ (-1 : ℝ) = x⁻¹ := by
  rw [show ((-1 : ℝ)) = ((-1 : ℤ) : ℝ) by norm_num, Real.rpow_intCast, zpow_neg_one]

/-- C2: the log-linear solver iterates Jacobi-style (both new quantities are
computed from the previous iteration's pair, which is how `stepQ` and hence
`iterQ` are defined), and the loop stops at the first pass where both deltas
are below `tol`, or at the iteration cap, whichever comes first: if no pass
within the cap satisfies the tolerance test the result is the clamped `F`-th
iterate, and if pass `m + 1` is the first to satisfy it the result is the
clamped `(m + 1)`-th iterate. -/
theorem c2_loop_characterization (P : Params) (tol : ℝ) (Q0 : ℝ × ℝ) (F : ℕ) :
    ((∀ m, m < F → ¬ convAt P tol Q0 m) →
      solveDemandsFrom P Q0 F tol = clampQ (iterQ P Q0 F))
    ∧ (∀ m, m < F → convAt P tol Q0 m →
        (∀ j, j < m → ¬ convAt P tol Q0 j) →
        solveDemandsFrom P Q0 F tol = clampQ (iterQ P Q0 (m + 1))) := by
  constructor
  · intro h
    unfold solveDemandsFrom
    rw [loopGo_of_no_conv P tol F Q0 h]
  · intro m hm hc hmin
    unfold solveDemandsFrom
    rw [loopGo_of_first_conv P tol m F Q0 hm hc hmin]

/-- Concrete parameters for the C2 witness: `k_A=3, k_B=4, p_A=p_B=1,
beta_A=beta_B=-1, gamma_A=gamma_B=0`. -/
def P2ex : Params := ⟨3, 4, 1, 1, -1, -1, 0, 0⟩

lemma stepQ_P2ex (Q : ℝ × ℝ) : stepQ P2ex Q = (3, 4) := by
  norm_num [stepQ, P2ex, Real.one_rpow, Real.rpow_zero]

lemma iterQ_P2ex_one : iterQ P2ex (50, 50) 1 = (3, 4) := by
  rw [iterQ_succ, iterQ_zero, stepQ_P2ex]

lemma iterQ_P2ex_two : iterQ P2ex (50, 50) 2 = (3, 4) := by
  rw [iterQ_succ, stepQ_P2ex]

theorem c2_loop_characterization_witness : solveDemands P2ex = (3, 4) := by
  have hc : convAt P2ex (1 / 1000000) (50, 50) 1 := by
    constructor <;>
      · rw [show (1 + 1 : ℕ) = 2 from rfl, iterQ_P2ex_two, iterQ_P2ex_one]
        norm_num
  have hmin : ∀ j, j < 1 → ¬ convAt P2ex (1 / 1000000) (50, 50) j := by
    intro j hj
    interval_cases j
    intro h
    have h1 := h.1
    rw [show (0 + 1 : ℕ) = 1 from rfl, iterQ_P2ex_one, iterQ_zero] at h1
    rw [abs_sub_lt_iff] at h1
    norm_num at h1
  have h := (c2_loop_characterization P2ex (1 / 1000000) (50, 50) 500).2 1
    (by norm_num) hc hmin
  unfold solveDemands
  rw [h, show (1 + 1 : ℕ) = 2 from rfl, iterQ_P2ex_two]
  norm_num [clampQ]

/-- C3: whatever the parameters, initial guess, cap and tolerance, the
returned quantities are clamped with `max(value, 0)` after the loop exits,
so both components of the result are non-negative. -/
theorem c3_nonneg (P : Params) (Q0 : ℝ × ℝ) (F : ℕ) (tol : ℝ) :
    0 ≤ (solveDemandsFrom P Q0 F tol).1 ∧
    0 ≤ (solveDemandsFrom P Q0 F tol).2 := by
  unfold solveDemandsFrom clampQ
  exact ⟨le_max_right _ 0, le_max_right _ 0⟩

/-- C4: the solver always terminates within the iteration cap, returning the
clamp of some iterate of index at most the cap; and when the tolerance test
never succeeds within the cap (divergent or oscillating parameters), it
returns the clamped last computed iterate (the `F`-th) rather than failing. -/
theorem c4_bounded_termination (P : Params) (Q0 : ℝ × ℝ) (F : ℕ) (tol : ℝ) :
    (∃ n, n ≤ F ∧ solveDemandsFrom P Q0 F tol = clampQ (iterQ P Q0 n))
    ∧ ((∀ m, m < F → ¬ convAt P tol Q0 m) →
        solveDemandsFrom P Q0 F tol = clampQ (iterQ P Q0 F)) := by
  classical
  constructor
  · by_cases h : ∃ m, m < F ∧ convAt P tol Q0 m
    · obtain ⟨hm0F, hc0⟩ := Nat.find_spec h
      refine ⟨Nat.find h + 1, Nat.succ_le_of_lt hm0F, ?_⟩
      unfold solveDemandsFrom
      rw [loopGo_of_first_conv P tol (Nat.find h) F Q0 hm0F hc0
        (fun j hj hcj => Nat.find_min h hj ⟨Nat.lt_trans hj hm0F, hcj⟩)]
    · refine ⟨F, le_refl F, ?_⟩
      unfold solveDemandsFrom
      rw [loopGo_of_no_conv P tol F Q0 (fun m hm hcm => h ⟨m, hm, hcm⟩)]
  · intro h
    unfold solveDemandsFrom
    rw [loopGo_of_no_conv P tol F Q0 h]

/-- Concrete parameters for the C4 witness: `k_A=k_B=1, p_A=p_B=1,
beta_A=beta_B=0, gamma_A=gamma_B=1`, for which the iteration never meets the
tolerance (the pair grows by one on each side every pass). -/
def P4ex : Params := ⟨1, 1, 1, 1, 0, 0, 1, 1⟩

lemma stepQ_P4ex (Q : ℝ × ℝ) : stepQ P4ex Q = (Q.2 + 1, Q.1 + 1) := by
  norm_num [stepQ, P4ex, Real.one_rpow, Real.rpow_one]

lemma iterQ_P4ex (n : ℕ) :
    iterQ P4ex (50, 50) n = (50 + (n : ℝ), 50 + (n : ℝ)) := by
  induction n with
  | zero => norm_num [iterQ_zero]
  | succ n ih =>
    rw [iterQ_succ, ih, stepQ_P4ex]
    simp only [Prod.mk.injEq]
    push_cast
    constructor <;> ring

lemma noconv_P4ex : ∀ m, m < 500 → ¬ convAt P4ex (1 / 1000000) (50, 50) m := by
  intro m _ hc
  have h1 := hc.1
  rw [iterQ_P4ex, iterQ_P4ex] at h1
  simp only at h1
  rw [show (50 + ((m + 1 : ℕ) : ℝ)) - (50 + (m : ℝ)) = 1 by push_cast; ring]
    at h1
  norm_num at h1

theorem c4_bounded_termination_witness : solveDemands P4ex = (550, 550) := by
  have h := (c4_bounded_termination P4ex (50, 50) 500 (1 / 1000000)).2
    noconv_P4ex
  unfold solveDemands
  rw [h, iterQ_P4ex]
  norm_num [clampQ]

/-- Concrete parameters with a negative price: `k_A=100, k_B=80, p_A=-1,
p_B=5, beta_A=beta_B=-1, gamma_A=gamma_B=0`.  The spec demands a DomainError
for non-positive prices, but `solve_demands` performs no validation: at this
input every power has an integer exponent, so the computation goes through
and returns a value. -/
def P1ex : Params := ⟨100, 80, -1, 5, -1, -1, 0, 0⟩

lemma stepQ_P1ex (Q : ℝ × ℝ) : stepQ P1ex Q = (-100, 16) := by
  norm_num [stepQ, P1ex, Real.rpow_zero, rpow_negOne]

lemma iterQ_P1ex_one : iterQ P1ex (50, 50) 1 = (-100, 16) := by
  rw [iterQ_succ, iterQ_zero, stepQ_P1ex]

lemma iterQ_P1ex_two : iterQ P1ex (50, 50) 2 = (-100, 16) := by
  rw [iterQ_succ, stepQ_P1ex]

/-- C1: the claim (and spec) say `solve_demands` fails with a DomainError
(InvalidPrice) whenever `p_A` or `p_B` is zero or negative.  The code has no
such check: at the negative price `p_A = -1` (with integer elasticities) it
silently returns the clamped pair `(0, 16)` instead of raising. -/
theorem c1_no_invalid_price_error : solveDemands P1ex = (0, 16) := by
  have hc : convAt P1ex (1 / 1000000) (50, 50) 1 := by
    constructor <;>
      · rw [show (1 + 1 : ℕ) = 2 from rfl, iterQ_P1ex_two, iterQ_P1ex_one]
        norm_num
  have hmin : ∀ j, j < 1 → ¬ convAt P1ex (1 / 1000000) (50, 50) j := by
    intro j hj
    interval_cases j
    intro h
    have h1 := h.1
    rw [show (0 + 1 : ℕ) = 1 from rfl, iterQ_P1ex_one, iterQ_zero] at h1
    rw [abs_sub_lt_iff] at h1
    norm_num at h1
  unfold solveDemands solveDemandsFrom
  rw [loopGo_of_first_conv P1ex (1 / 1000000) 1 500 (50, 50) (by norm_num)
    hc hmin]
  rw [show (1 + 1 : ℕ) = 2 from rfl, iterQ_P1ex_two]
  norm_num [clampQ]

/-- Concrete parameters for C5: `k_A=100, k_B=80, p_A=p_B=1,
beta_A=beta_B=-1, gamma_A=gamma_B=0`. -/
def P5ex : Params := ⟨100, 80, 1, 1, -1, -1, 0, 0⟩

lemma stepQ_P5ex (Q : ℝ × ℝ) : stepQ P5ex Q = (100, 80) := by
  norm_num [stepQ, P5ex, Real.one_rpow, Real.rpow_zero]

lemma iterQ_P5ex_one : iterQ P5ex (50, 50) 1 = (100, 80) := by
  rw [iterQ_succ, iterQ_zero, stepQ_P5ex]

lemma iterQ_P5ex_two : iterQ P5ex (50, 50) 2 = (100, 80) := by
  rw [iterQ_succ, stepQ_P5ex]

/-- C5 counterexample: with `gamma_A = gamma_B = 0` and positive `k`s and
prices, the solver does NOT converge in one iteration: at the first pass the
tolerance test compares the first iterate against the starting guess
`(50, 50)` and fails (here the first iterate is `(100, 80)`), so the break
happens only at the second pass. -/
theorem c5_one_iteration_counterexample :
    (0 < P5ex.k_A ∧ 0 < P5ex.k_B ∧ 0 < P5ex.p_A ∧ 0 < P5ex.p_B ∧
      P5ex.gamma_A = 0 ∧ P5ex.gamma_B = 0) ∧
    ¬ convAt P5ex (1 / 1000000) (50, 50) 0 := by
  refine ⟨⟨by norm_num [P5ex], by norm_num [P5ex], by norm_num [P5ex],
    by norm_num [P5ex], rfl, rfl⟩, ?_⟩
  intro h
  have h1 := h.1
  rw [show (0 + 1 : ℕ) = 1 from rfl, iterQ_P5ex_one, iterQ_zero] at h1
  rw [abs_sub_lt_iff] at h1
  norm_num at h1

/-- C5 amended: if `gamma_A = gamma_B = 0` (with positive scales and prices)
the first iterate already equals the fixed point
`(k_A * p_A ^ beta_A, k_B * p_B ^ beta_B)`; the loop's tolerance test
succeeds at the second pass (deltas are exactly zero), and for any cap of at
least one iteration the solver returns exactly that pair. -/
theorem c5_zero_cross_effect (P : Params) (hkA : 0 < P.k_A) (hkB : 0 < P.k_B)
    (hpA : 0 < P.p_A) (hpB : 0 < P.p_B)
    (hgA : P.gamma_A = 0) (hgB : P.gamma_B = 0)
    (tol : ℝ) (htol : 0 < tol) (F : ℕ) (hF : 1 ≤ F) :
    solveDemandsFrom P (50, 50) F tol
      = (P.k_A * P.p_A ^ P.beta_A, P.k_B * P.p_B ^ P.beta_B)
    ∧ iterQ P (50, 50) 1
      = (P.k_A * P.p_A ^ P.beta_A, P.k_B * P.p_B ^ P.beta_B)
    ∧ convAt P tol (50, 50) 1 := by
  have hstep : ∀ Q : ℝ × ℝ,
      stepQ P Q = (P.k_A * P.p_A ^ P.beta_A, P.k_B * P.p_B ^ P.beta_B) := by
    intro Q
    simp [stepQ, hgA, hgB, Real.rpow_zero]
  have h1 : iterQ P (50, 50) 1
      = (P.k_A * P.p_A ^ P.beta_A, P.k_B * P.p_B ^ P.beta_B) := by
    rw [iterQ_succ, iterQ_zero, hstep]
  have h2 : iterQ P (50, 50) 2
      = (P.k_A * P.p_A ^ P.beta_A, P.k_B * P.p_B ^ P.beta_B) := by
    rw [iterQ_succ, hstep]
  have hc1 : convAt P tol (50, 50) 1 := by
    constructor <;>
      · rw [show (1 + 1 : ℕ) = 2 from rfl, h2, h1]
        simp only [sub_self, abs_zero]
        exact htol
  have hpos1 : (0 : ℝ) < P.k_A * P.p_A ^ P.beta_A :=
    mul_pos hkA (Real.rpow_pos_of_pos hpA _)
  have hpos2 : (0 : ℝ) < P.k_B * P.p_B ^ P.beta_B :=
    mul_pos hkB (Real.rpow_pos_of_pos hpB _)
  have hclamp : clampQ (P.k_A * P.p_A ^ P.beta_A, P.k_B * P.p_B ^ P.beta_B)
      = (P.k_A * P.p_A ^ P.beta_A, P.k_B * P.p_B ^ P.beta_B) := by
    unfold clampQ
    rw [max_eq_left hpos1.le, max_eq_left hpos2.le]
  refine ⟨?_, h1, hc1⟩
  by_cases h0 : convAt P tol (50, 50) 0
  · have hgo := loopGo_of_first_conv P tol 0 F (50, 50) hF h0
      (fun j hj => absurd hj (Nat.not_lt_zero j))
    unfold solveDemandsFrom
    rw [hgo, show (0 + 1 : ℕ) = 1 from rfl, h1, hclamp]
  · rcases Nat.lt_or_ge F 2 with hF2 | hF2
    · have hFeq : F = 1 := le_antisymm (Nat.lt_succ_iff.mp hF2) hF
      subst hFeq
      have hgo := loopGo_of_no_conv P tol 1 (50, 50)
        (fun m hm => by interval_cases m; exact h0)
      unfold solveDemandsFrom
      rw [hgo, h1, hclamp]
    · have hgo := loopGo_of_first_conv P tol 1 F (50, 50) hF2 hc1
        (fun j hj => by interval_cases j; exact h0)
      unfold solveDemandsFrom
      rw [hgo, show (1 + 1 : ℕ) = 2 from rfl, h2, hclamp]

theorem c5_zero_cross_effect_witness :
    solveDemands P5ex = (100, 80) ∧ convAt P5ex (1 / 1000000) (50, 50) 1 := by
  have h := c5_zero_cross_effect P5ex (by norm_num [P5ex])
    (by norm_num [P5ex]) (by norm_num [P5ex]) (by norm_num [P5ex]) rfl rfl
    (1 / 1000000) (by norm_num) 500 (by norm_num)
  refine ⟨?_, h.2.2⟩
  show solveDemandsFrom P5ex (50, 50) 500 (1 / 1000000) = (100, 80)
  rw [h.1]
  norm_num [P5ex, Real.one_rpow]

/-- Concrete parameters for the C9 witness. -/
def P9ex : Params := ⟨50, 60, 2, 3, -1, -2, 1, 1⟩

/-- C9: `solve_demands` is deterministic: two invocations with equal
parameters, initial guess, cap and tolerance return equal pairs.  The
solver is a total function of exactly these explicit inputs (it reads and
writes no other state), which the embedding reflects. -/
theorem c9_deterministic (P P' : Params) (Q0 Q0' : ℝ × ℝ) (F F' : ℕ)
    (tol tol' : ℝ) (hP : P = P') (hQ : Q0 = Q0') (hF : F = F')
    (ht : tol = tol') :
    solveDemandsFrom P Q0 F tol = solveDemandsFrom P' Q0' F' tol' := by
  rw [hP, hQ, hF, ht]

theorem c9_deterministic_witness :
    solveDemandsFrom P9ex (50, 50) 500 (1 / 1000000)
      = solveDemandsFrom P9ex (50, 50) 500 (1 / 1000000) :=
  c9_deterministic P9ex P9ex (50, 50) (50, 50) 500 500 (1 / 1000000)
    (1 / 1000000) rfl rfl rfl rfl

lemma stepQ_pos (P : Params) (hkA : 0 < P.k_A) (hkB : 0 < P.k_B)
    (hpA : 0 < P.p_A) (hpB : 0 < P.p_B) (Q : ℝ × ℝ)
    (hQ : 0 < Q.1 ∧ 0 < Q.2) : 0 < (stepQ P Q).1 ∧ 0 < (stepQ P Q).2 := by
  constructor
  · exact mul_pos (mul_pos hkA (Real.rpow_pos_of_pos hpA _))
      (Real.rpow_pos_of_pos (by have := hQ.2; linarith) _)
  · exact mul_pos (mul_pos hkB (Real.rpow_pos_of_pos hpB _))
      (Real.rpow_pos_of_pos (by have := hQ.1; linarith) _)

lemma iterQ_pos (P : Params) (hkA : 0 < P.k_A) (hkB : 0 < P.k_B)
    (hpA : 0 < P.p_A) (hpB : 0 < P.p_B) (Q0 : ℝ × ℝ)
    (hQ : 0 < Q0.1 ∧ 0 < Q0.2) (n : ℕ) :
    0 < (iterQ P Q0 n).1 ∧ 0 < (iterQ P Q0 n).2 := by
  induction n with
  | zero => exact hQ
  | succ n ih => exact stepQ_pos P hkA hkB hpA hpB _ ih

lemma loopGo_pos (P : Params) (tol : ℝ) (hkA : 0 < P.k_A) (hkB : 0 < P.k_B)
    (hpA : 0 < P.p_A) (hpB : 0 < P.p_B) (F : ℕ) (Q : ℝ × ℝ)
    (hQ : 0 < Q.1 ∧ 0 < Q.2) :
    0 < (loopGo P tol F Q).1 ∧ 0 < (loopGo P tol F Q).2 := by
  induction F generalizing Q with
  | zero => exact hQ
  | succ F ih =>
    rw [loopGo_succ]
    by_cases h : |(stepQ P Q).1 - Q.1| < tol ∧ |(stepQ P Q).2 - Q.2| < tol
    · rw [if_pos h]
      exact stepQ_pos P hkA hkB hpA hpB Q hQ
    · rw [if_neg h]
      exact ih (stepQ P Q) (stepQ_pos P hkA hkB hpA hpB Q hQ)

/-- C10: with positive scales and prices (and any real exponents), every
iterate inside the loop is strictly positive, the final clamp never changes
the value (the solver result equals the raw loop result), and both returned
quantities are strictly positive, not merely non-negative. -/
theorem c10_strict_positivity (P : Params) (Q0 : ℝ × ℝ) (F : ℕ) (tol : ℝ)
    (hkA : 0 < P.k_A) (hkB : 0 < P.k_B) (hpA : 0 < P.p_A) (hpB : 0 < P.p_B)
    (hQ1 : 0 < Q0.1) (hQ2 : 0 < Q0.2) :
    (∀ n, 0 < (iterQ P Q0 n).1 ∧ 0 < (iterQ P Q0 n).2)
    ∧ solveDemandsFrom P Q0 F tol = loopGo P tol F Q0
    ∧ 0 < (solveDemandsFrom P Q0 F tol).1
    ∧ 0 < (solveDemandsFrom P Q0 F tol).2 := by
  have hloop := loopGo_pos P tol hkA hkB hpA hpB F Q0 ⟨hQ1, hQ2⟩
  have hsolve : solveDemandsFrom P Q0 F tol = loopGo P tol F Q0 := by
    unfold solveDemandsFrom clampQ
    rw [max_eq_left hloop.1.le, max_eq_left hloop.2.le]
  refine ⟨iterQ_pos P hkA hkB hpA hpB Q0 ⟨hQ1, hQ2⟩, hsolve, ?_, ?_⟩
  · rw [hsolve]; exact hloop.1
  · rw [hsolve]; exact hloop.2

/-- Concrete parameters for the C10 witness, with fractional exponents. -/
noncomputable def P10ex : Params := ⟨2, 3, 5, 7, -2, -1, 1 / 2, 4 / 5⟩

theorem c10_strict_positivity_witness :
    0 < (solveDemands P10ex).1 ∧ 0 < (solveDemands P10ex).2 := by
  have h := c10_strict_positivity P10ex (50, 50) 500 (1 / 1000000)
    (by norm_num [P10ex]) (by norm_num [P10ex]) (by norm_num [P10ex])
    (by norm_num [P10ex]) (by norm_num) (by norm_num)
  exact ⟨h.2.2.1, h.2.2.2⟩

/-- The grid size of src/app.py line 76: `grid_points = 40`. -/
def gridPoints : ℕ := 40

/-- `np.linspace(low, high, n)` (src/app.py lines 81-82): `n` evenly spaced
samples, the i-th being `low + (high - low) * i / (n - 1)`. -/
noncomputable def linspace (low high : ℝ) (n : ℕ) : List ℝ :=
  (List.range n).map
    (fun i : ℕ => low + (high - low) * (i : ℝ) / ((n : ℝ) - 1))

/-- The side-A price grid (src/app.py lines 78 and 81):
`np.linspace(0.1, max(p_A * 2, 10.0), grid_points)`. -/
noncomputable def pAGrid (pA : ℝ) : List ℝ :=
  linspace (1 / 10) (max (pA * 2) 10) gridPoints

/-- The side-B price grid (src/app.py lines 79 and 82). -/
noncomputable def pBGrid (pB : ℝ) : List ℝ :=
  linspace (1 / 10) (max (pB * 2) 10) gridPoints

/-- The parameter set with the side-A price replaced by a grid sample
(src/app.py line 89). -/
def withPA (P : Params) (x : ℝ) : Params :=
  ⟨P.k_A, P.k_B, x, P.p_B, P.beta_A, P.beta_B, P.gamma_A, P.gamma_B⟩

/-- The parameter set with the side-B price replaced by a grid sample
(src/app.py line 98). -/
def withPB (P : Params) (x : ℝ) : Params :=
  ⟨P.k_A, P.k_B, P.p_A, x, P.beta_A, P.beta_B, P.gamma_A, P.gamma_B⟩

/-- The side-A revenue samples `RA_grid` (src/app.py lines 88-92): for each
grid price, revenue = price times the equilibrium side-A quantity at that
price. -/
noncomputable def RAList (P : Params) : List ℝ :=
  (pAGrid P.p_A).map (fun x => x * (solveDemands (withPA P x)).1)

/-- The side-B revenue samples `RB_grid` (src/app.py lines 97-101). -/
noncomputable def RBList (P : Params) : List ℝ :=
  (pBGrid P.p_B).map (fun x => x * (solveDemands (withPB P x)).2)

/-- `np.argmax`: the first index attaining the maximum of the list
(`np.argmax` scans left to right and keeps strictly greater values only). -/
noncomputable def argmaxIdx : List ℝ → ℕ
  | [] => 0
  | [_] => 0
  | x :: y :: t =>
    if x < (y :: t).getD (argmaxIdx (y :: t)) 0 then argmaxIdx (y :: t) + 1
    else 0

/-- `idx_opt_A = int(np.argmax(RA_grid))` (src/app.py line 109). -/
noncomputable def idxOptA (P : Params) : ℕ := argmaxIdx (RAList P)

/-- `idx_opt_B = int(np.argmax(RB_grid))` (src/app.py line 110). -/
noncomputable def idxOptB (P : Params) : ℕ := argmaxIdx (RBList P)

lemma argmaxIdx_cons (x y : ℝ) (t : List ℝ) :
    argmaxIdx (x :: y :: t) =
      if x < (y :: t).getD (argmaxIdx (y :: t)) 0 then argmaxIdx (y :: t) + 1
      else 0 := rfl

lemma argmaxIdx_lt_length : ∀ l : List ℝ, l ≠ [] → argmaxIdx l < l.length
  | [], h => absurd rfl h
  | [_], _ => Nat.zero_lt_one
  | x :: y :: t, _ => by
    rw [argmaxIdx_cons]
    by_cases h : x < (y :: t).getD (argmaxIdx (y :: t)) 0
    · rw [if_pos h]
      exact Nat.succ_lt_succ (argmaxIdx_lt_length (y :: t) (List.cons_ne_nil y t))
    · rw [if_neg h]
      exact Nat.succ_pos _

/-- Every element of the list is at most the element at the argmax index. -/
lemma getD_le_argmaxIdx :
    ∀ (l : List ℝ) (i : ℕ), i < l.length →
      l.getD i 0 ≤ l.getD (argmaxIdx l) 0
  | [], i, hi => absurd hi (by simp)
  | [x], i, hi => by
    have : i = 0 := by simpa using Nat.lt_one_iff.mp (by simpa using hi)
    subst this
    exact le_refl _
  | x :: y :: t, i, hi => by
    rw [argmaxIdx_cons]
    by_cases h : x < (y :: t).getD (argmaxIdx (y :: t)) 0
    · rw [if_pos h, List.getD_cons_succ]
      cases i with
      | zero => rw [List.getD_cons_zero]; exact h.le
      | succ i =>
        rw [List.getD_cons_succ]
        exact getD_le_argmaxIdx (y :: t) i (by simpa using hi)
    · rw [if_neg h, List.getD_cons_zero]
      push_neg at h
      cases i with
      | zero => rw [List.getD_cons_zero]
      | succ i =>
        rw [List.getD_cons_succ]
        exact le_trans (getD_le_argmaxIdx (y :: t) i (by simpa using hi)) h

/-- Ties are broken by first occurrence: every element strictly before the
argmax index is strictly below the maximum. -/
lemma getD_lt_of_lt_argmaxIdx :
    ∀ (l : List ℝ) (i : ℕ), i < argmaxIdx l →
      l.getD i 0 < l.getD (argmaxIdx l) 0
  | [], i, hi => absurd hi (by simp [argmaxIdx])
  | [x], i, hi => absurd hi (by simp [argmaxIdx])
  | x :: y :: t, i, hi => by
    rw [argmaxIdx_cons] at hi ⊢
    by_cases h : x < (y :: t).getD (argmaxIdx (y :: t)) 0
    · rw [if_pos h] at hi ⊢
      rw [List.getD_cons_succ]
      cases i with
      | zero => rw [List.getD_cons_zero]; exact h
      | succ i =>
        rw [List.getD_cons_succ]
        exact getD_lt_of_lt_argmaxIdx (y :: t) i (Nat.lt_of_succ_lt_succ hi)
    · rw [if_neg h] at hi
      exact absurd hi (Nat.not_lt_zero i)

lemma linspace_length (low high : ℝ) (n : ℕ) : (linspace low high n).length = n := by
  simp [linspace]

lemma linspace_getD (low high : ℝ) (n i : ℕ) (hi : i < n) :
    (linspace low high n).getD i 0
      = low + (high - low) * i / ((n : ℝ) - 1) := by
  unfold linspace
  rw [List.getD_eq_getElem _ _ (by simpa using hi), List.getElem_map,
    List.getElem_range]

lemma linspace_strictMono (low high : ℝ) (h : low < high) (n i j : ℕ)
    (hij : i < j) (hj : j < n) :
    (linspace low high n).getD i 0 < (linspace low high n).getD j 0 := by
  rw [linspace_getD low high n i (Nat.lt_trans hij hj),
    linspace_getD low high n j hj]
  have h2 : (2 : ℕ) ≤ n := by omega
  have hc : (0 : ℝ) < (n : ℝ) - 1 := by
    have : (2 : ℝ) ≤ (n : ℝ) := by exact_mod_cast h2
    linarith
  have hij' : (i : ℝ) < (j : ℝ) := by exact_mod_cast hij
  have hnum : (high - low) * i < (high - low) * j :=
    mul_lt_mul_of_pos_left hij' (sub_pos.mpr h)
  have := div_lt_div_of_pos_right hnum hc
  linarith

lemma pAGrid_lt (pA : ℝ) : (1 : ℝ) / 10 < max (pA * 2) 10 :=
  lt_of_lt_of_le (by norm_num) (le_max_right _ 10)

lemma RAList_length (P : Params) : (RAList P).length = gridPoints := by
  simp [RAList, pAGrid, linspace_length]

lemma RBList_length (P : Params) : (RBList P).length = gridPoints := by
  simp [RBList, pBGrid, linspace_length]

/-- C6: in the revenue grid scan of each side, the price samples are
strictly increasing, the revenue at the reported argmax index is at least
every other revenue sample in the scan, and ties in the maximum are broken
by the first occurrence (every sample strictly before the argmax index has
strictly smaller revenue). -/
theorem c6_grid_scan_argmax (P : Params) (i j : ℕ) (hij : i < j)
    (hj : j < gridPoints) :
    ((pAGrid P.p_A).getD i 0 < (pAGrid P.p_A).getD j 0
      ∧ (pBGrid P.p_B).getD i 0 < (pBGrid P.p_B).getD j 0)
    ∧ (∀ t, t < gridPoints →
        ((RAList P).getD t 0 ≤ (RAList P).getD (idxOptA P) 0
          ∧ (t < idxOptA P →
              (RAList P).getD t 0 < (RAList P).getD (idxOptA P) 0))
        ∧ ((RBList P).getD t 0 ≤ (RBList P).getD (idxOptB P) 0
          ∧ (t < idxOptB P →
              (RBList P).getD t 0 < (RBList P).getD (idxOptB P) 0))) := by
  constructor
  · exact ⟨linspace_strictMono _ _ (pAGrid_lt P.p_A) gridPoints i j hij hj,
      linspace_strictMono _ _ (pAGrid_lt P.p_B) gridPoints i j hij hj⟩
  · intro t ht
    refine ⟨⟨?_, fun hlt => ?_⟩, ⟨?_, fun hlt => ?_⟩⟩
    · exact getD_le_argmaxIdx (RAList P) t (by rw [RAList_length]; exact ht)
    · exact getD_lt_of_lt_argmaxIdx (RAList P) t hlt
    · exact getD_le_argmaxIdx (RBList P) t (by rw [RBList_length]; exact ht)
    · exact getD_lt_of_lt_argmaxIdx (RBList P) t hlt

/-- Concrete parameters for the C6 witness: the slider defaults of
src/app.py. -/
def P6ex : Params := ⟨100, 80, 10, 5, -1, -1, 0, 0⟩

theorem c6_grid_scan_argmax_witness :
    (pAGrid P6ex.p_A).getD 0 0 < (pAGrid P6ex.p_A).getD 1 0
    ∧ (RAList P6ex).getD 2 0 ≤ (RAList P6ex).getD (idxOptA P6ex) 0 :=
  ⟨((c6_grid_scan_argmax P6ex 0 1 (by norm_num)
      (by norm_num [gridPoints])).1).1,
    (((c6_grid_scan_argmax P6ex 0 1 (by norm_num)
      (by norm_num [gridPoints])).2 2 (by norm_num [gridPoints])).1).1⟩

/-- Modelled from the spec: the revenue samples of `scan_revenue` with a
configurable sample count (spec section 4.3; src/app.py hard-codes the count
at 40 and has no sample-count parameter): sample `n` evenly spaced prices
over the range and take revenue = price times the own-side quantity given by
the per-price equilibrium quantity function `q`. -/
noncomputable def scanRevList (q : ℝ → ℝ) (low high : ℝ) (n : ℕ) : List ℝ :=
  (linspace low high n).map (fun x => x * q x)

/-- Modelled from the spec: the maximum revenue reported by the grid scan,
i.e. the revenue sample at the first-occurrence argmax index (spec
section 4.3). -/
noncomputable def scanMaxRev (q : ℝ → ℝ) (low high : ℝ) (n : ℕ) : ℝ :=
  (scanRevList q low high n).getD (argmaxIdx (scanRevList q low high n)) 0

/-- Modelled from the spec: the linear direct solver (spec section 4.2,
present in other variants of the repository but not in src/app.py): solve
the 2x2 system by Cramer's rule, failing when the determinant
`1 - gamma_A * gamma_B` is zero, and clamp both results at zero. -/
noncomputable def solveLinear (a_A a_B b_A b_B gA gB pA pB : ℝ) :
    Option (ℝ × ℝ) :=
  let det := 1 - gA * gB
  if det = 0 then none
  else
    let vA := a_A - b_A * pA
    let vB := a_B - b_B * pB
    some (max ((vA + gA * vB) / det) 0, max ((vB + gB * vA) / det) 0)

/-- The side-A quantity function of the concrete linear market used for the
C7 counterexample: `a_A = 1, b_A = 1`, no cross effects, other side held at
price 1; so the quantity at price x is `max (1 - x) 0`. -/
noncomputable def qLinEx (x : ℝ) : ℝ :=
  ((solveLinear 1 0 1 0 0 0 x 1).getD (0, 0)).1

lemma qLinEx_eq (x : ℝ) : qLinEx x = max (1 - x) 0 := by
  unfold qLinEx solveLinear
  norm_num

lemma scanRevList_three :
    scanRevList qLinEx 0 1 3 = [0, 1 / 4, 0] := by
  unfold scanRevList linspace
  rw [show List.range 3 = [0, 1, 2] by decide]
  simp only [List.map_cons, List.map_nil, qLinEx_eq]
  norm_num [max_def]

lemma scanRevList_four :
    scanRevList qLinEx 0 1 4 = [0, 2 / 9, 2 / 9, 0] := by
  unfold scanRevList linspace
  rw [show List.range 4 = [0, 1, 2, 3] by decide]
  simp only [List.map_cons, List.map_nil, qLinEx_eq]
  norm_num [max_def]

lemma argmax_three : argmaxIdx [(0 : ℝ), 1 / 4, 0] = 1 := by
  norm_num [argmaxIdx]

lemma argmax_four : argmaxIdx [(0 : ℝ), 2 / 9, 2 / 9, 0] = 1 := by
  norm_num [argmaxIdx]

/-- C7 counterexample: for the price range `[0, 1]` and sample counts
`3 ≤ 4`, the scan over the concrete linear market `qLinEx` reports maximum
revenue 1/4 with 3 samples (peak hit exactly at price 1/2) but only 2/9 with
4 samples (1/2 is not a grid point of the finer grid): increasing the sample
count DECREASES the reported maximum revenue. -/
theorem c7_counterexample :
    scanMaxRev qLinEx 0 1 4 < scanMaxRev qLinEx 0 1 3 := by
  unfold scanMaxRev
  rw [scanRevList_three, scanRevList_four, argmax_three, argmax_four]
  norm_num

lemma scanRevList_length (q : ℝ → ℝ) (low high : ℝ) (n : ℕ) :
    (scanRevList q low high n).length = n := by
  simp [scanRevList, linspace_length]

lemma scanRevList_getD (q : ℝ → ℝ) (low high : ℝ) (n i : ℕ) (hi : i < n) :
    (scanRevList q low high n).getD i 0
      = (linspace low high n).getD i 0
          * q ((linspace low high n).getD i 0) := by
  unfold scanRevList
  rw [List.getD_eq_getElem _ _
      (by rw [List.length_map, linspace_length]; exact hi),
    List.getElem_map,
    List.getD_eq_getElem _ _ (by rw [linspace_length]; exact hi)]

/-- Refining the grid by an integer factor keeps every coarse sample: the
fine grid evaluates to the same price at index `i * k`. -/
lemma linspace_getD_refine (low high : ℝ) (n1 n2 i k : ℕ) (h2 : 2 ≤ n1)
    (hk : 1 ≤ k) (hn2 : n2 - 1 = (n1 - 1) * k) (hn12 : n1 ≤ n2)
    (hi : i < n1) :
    (linspace low high n2).getD (i * k) 0 = (linspace low high n1).getD i 0 := by
  have h1n2 : 1 ≤ n2 := le_trans (by omega) hn12
  have hik : i * k < n2 := by
    have h1 : i * k ≤ (n1 - 1) * k := Nat.mul_le_mul_right k (by omega)
    rw [← hn2] at h1
    omega
  rw [linspace_getD low high n2 (i * k) hik, linspace_getD low high n1 i hi]
  have hcast : ((n2 : ℝ)) - 1 = (((n1 : ℝ)) - 1) * (k : ℝ) := by
    have h := congrArg (fun m : ℕ => (m : ℝ)) hn2
    simp only [Nat.cast_mul] at h
    rw [Nat.cast_sub h1n2, Nat.cast_sub (by omega : 1 ≤ n1)] at h
    simpa using h
  rw [hcast]
  have hk0 : (k : ℝ) ≠ 0 := by
    have : (1 : ℝ) ≤ (k : ℝ) := by exact_mod_cast hk
    linarith
  rw [Nat.cast_mul,
    show (high - low) * ((i : ℝ) * (k : ℝ)) = (high - low) * (i : ℝ) * (k : ℝ)
      by ring,
    mul_div_mul_right _ _ hk0]

/-- C7 amended: the reported maximum revenue never decreases under grid
refinement when the coarse samples are a subset of the fine samples, i.e.
when `n1 - 1` divides `n2 - 1` (with `1 ≤ n1 ≤ n2`); for unrelated sample
counts the coarse peak can fall off the finer grid and the reported maximum
can decrease, as the counterexample shows. -/
theorem c7_grid_refinement (q : ℝ → ℝ) (low high : ℝ) (n1 n2 : ℕ)
    (h1 : 1 ≤ n1) (h12 : n1 ≤ n2) (hdvd : (n1 - 1) ∣ (n2 - 1)) :
    scanMaxRev q low high n1 ≤ scanMaxRev q low high n2 := by
  rcases Nat.lt_or_ge n1 2 with hn1 | hn1
  · have hn1e : n1 = 1 := by omega
    subst hn1e
    have h0 : n2 - 1 = 0 := Nat.eq_zero_of_zero_dvd (by simpa using hdvd)
    have hn2e : n2 = 1 := by omega
    subst hn2e
    exact le_refl _
  · obtain ⟨k, hk⟩ := hdvd
    have hk1 : 1 ≤ k := by
      rcases Nat.eq_zero_or_pos k with hk0 | hk0
      · subst hk0
        simp at hk
        omega
      · exact hk0
    have hne : scanRevList q low high n1 ≠ [] :=
      List.ne_nil_of_length_pos (by rw [scanRevList_length]; omega)
    have hi0 : argmaxIdx (scanRevList q low high n1) < n1 := by
      have := argmaxIdx_lt_length _ hne
      rwa [scanRevList_length] at this
    have hik : argmaxIdx (scanRevList q low high n1) * k < n2 := by
      have h1' : argmaxIdx (scanRevList q low high n1) * k ≤ (n1 - 1) * k :=
        Nat.mul_le_mul_right k (by omega)
      rw [← hk] at h1'
      omega
    calc scanMaxRev q low high n1
        = (linspace low high n1).getD (argmaxIdx (scanRevList q low high n1)) 0
            * q ((linspace low high n1).getD
                (argmaxIdx (scanRevList q low high n1)) 0) :=
          scanRevList_getD q low high n1 _ hi0
      _ = (scanRevList q low high n2).getD
            (argmaxIdx (scanRevList q low high n1) * k) 0 := by
          rw [scanRevList_getD q low high n2 _ hik,
            linspace_getD_refine low high n1 n2 _ k hn1 hk1 hk h12 hi0]
      _ ≤ scanMaxRev q low high n2 :=
          getD_le_argmaxIdx _ _ (by rw [scanRevList_length]; exact hik)

theorem c7_grid_refinement_witness :
    scanMaxRev qLinEx 0 1 3 ≤ scanMaxRev qLinEx 0 1 5 :=
  c7_grid_refinement qLinEx 0 1 3 5 (by norm_num) (by norm_num) (by decide)

end Market
